import Mathlib

/-!
Verification development for the `cocktail` repository.

The embedding covers two source files:

* `src/cocktail/core/database/data_classes.py` — deserialisation of model
  JSON pages into flat record tuples (`Model`, `ModelVersion`, `ModelFile`,
  `ModelImage`, `Page`), timestamp-fallback resolution, and safety filtering.
* `src/cocktail/ui/download/controller.py` — the download controller:
  type dispatch, SQL-query error raising, destination-path construction and
  sidecar-file naming.

Python runtime values are embedded as the dynamic type `PyVal`; code that can
raise is embedded with `Option` (deserialisation layer) or `Except PyErr`
(controller layer).  External dependencies — the Python standard library
(`datetime`, `json`) and the repository module `cocktail.core.database.util`
whose source is not part of the excerpt — are parameters collected in `Env`.
-/

/-- A dynamic Python value: the JSON payloads and database column values the
repository manipulates. Dicts are association lists keyed by strings. -/
inductive PyVal where
  | none
  | bool (b : Bool)
  | int (n : Int)
  | float (q : Rat)
  | str (s : String)
  | list (xs : List PyVal)
  | dict (entries : List (String × PyVal))

/-- Python truthiness: `None`, `False`, `0`, `""`, `[]`, and an empty dict are
falsy; everything else is truthy. -/
def PyVal.truthy : PyVal → Bool
  | .none => false
  | .bool b => b
  | .int n => if n = 0 then false else true
  | .float q => if q = 0 then false else true
  | .str s => if s = "" then false else true
  | .list xs => if xs.isEmpty then false else true
  | .dict es => if es.isEmpty then false else true

/-- Python `a or b`: returns `a` when truthy, else `b`. -/
def pyOr (a b : PyVal) : PyVal :=
  if a.truthy then a else b

/-- Lookup of a key in a dict represented as an association list. -/
def dictFind : List (String × PyVal) → String → Option PyVal
  | [], _ => Option.none
  | (k, v) :: rest, key => if k = key then some v else dictFind rest key

/-- Python `d[key] = v` on a dict: replace the value at the key, appending
when the key is absent. -/
def dictSet (es : List (String × PyVal)) (key : String) (v : PyVal) :
    List (String × PyVal) :=
  if es.any (fun p => p.1 = key) then
    es.map (fun p => if p.1 = key then (p.1, v) else p)
  else
    es ++ [(key, v)]

/-- Python `key in d`: key membership on dicts (`False` on any other value;
the code only evaluates it on dicts). -/
def PyVal.hasKey : PyVal → String → Bool
  | .dict es, k => es.any (fun p => p.1 = k)
  | _, _ => false

/-- Python `data[key]` on a dict; `Option.none` models the `KeyError` or
`TypeError` raised on a missing key or a non-dict value. -/
def PyVal.getItem : PyVal → String → Option PyVal
  | .dict es, k => dictFind es k
  | _, _ => Option.none

/-- Python `data.get(key, default)`; `Option.none` models the
`AttributeError` raised when the receiver is not a dict. -/
def PyVal.pyget : PyVal → String → PyVal → Option PyVal
  | .dict es, k, d => some ((dictFind es k).getD d)
  | _, _, _ => Option.none

/-- Python `data[key] = v` lifted to `PyVal`; only dicts are updated (the
code only assigns into dicts). -/
def PyVal.setItem : PyVal → String → PyVal → PyVal
  | .dict es, k, v => .dict (dictSet es k v)
  | other, _, _ => other

/-- View a value as a Python list; `Option.none` models the `TypeError`
raised when iterating a non-list. -/
def PyVal.asList : PyVal → Option (List PyVal)
  | .list xs => some xs
  | _ => Option.none

/-- View a value as a Python str; `Option.none` models the exception raised
by str-only operations on other values. -/
def PyVal.asStr : PyVal → Option String
  | .str s => some s
  | _ => Option.none

/-- Whether the value is a Python str. -/
def PyVal.isStr : PyVal → Bool
  | .str _ => true
  | _ => false

/-- View a value as a dict; `Option.none` models the `AttributeError`
raised by dict-only methods on other values. -/
def PyVal.asDict : PyVal → Option (List (String × PyVal))
  | .dict es => some es
  | _ => Option.none

/-- Python `v == s` against a string literal: true only for an equal str. -/
def PyVal.eqStr : PyVal → String → Bool
  | .str s, t => s = t
  | _, _ => false

/-- Python `str(v)` for the scalar values the code formats; containers are
abstracted (the code never formats a container). -/
def PyVal.pyStr : PyVal → String
  | .none => "None"
  | .bool b => if b then "True" else "False"
  | .int n => toString n
  | .float q => toString q
  | .str s => s
  | .list _ => "[]"
  | .dict _ => "\x7b\x7d"

/-- Python `s.replace(old, new)` for a one-character `old`, the only form
the source uses (`"Z"` and `" "`): expand each matching character. -/
def strReplaceChar (s : String) (old : Char) (new : String) : String :=
  String.mk ((s.data.map (fun c => if c = old then new.data else [c])).flatten)

/-- Effectful map over a list in the `Option` monad, mirroring a Python loop
that can raise at each element. -/
def mapOpt (f : α → Option β) : List α → Option (List β)
  | [] => some []
  | x :: xs => do
      let y ← f x
      let ys ← mapOpt f xs
      some (y :: ys)

/-- Python `max` over a list of ints; `Option.none` models the `ValueError`
on an empty list. -/
def pymax : List Int → Option Int
  | [] => Option.none
  | x :: xs => some (xs.foldl max x)

/-- External dependencies of the deserialisation layer: the Python standard
library (`datetime`, `json`) and the repository module
`cocktail.core.database.util`, whose source is not part of the excerpt.

Modelled from the spec: `util.is_file_safe` is the boolean file safety check
(files are filtered to only safe ones before persistence);
`util.select_category` selects the category from the tag list;
`util.detect_nsfw` computes the nsfw flag; `util.get_image` picks the image
dict of a model payload. -/
structure Env where
  /-- `int(datetime.datetime.fromisoformat(s).timestamp())`; `Option.none`
  models the `ValueError` on an unparsable date string. -/
  fromisoformat : String → Option Int
  /-- `int(datetime.datetime.now().timestamp())`. -/
  nowInt : Int
  /-- `datetime.datetime.now().timestamp()` (a Python float). -/
  nowFloat : Rat
  /-- `util.get_image(data)`. -/
  get_image : PyVal → PyVal
  /-- `util.select_category(tags)`. -/
  select_category : PyVal → PyVal
  /-- `util.detect_nsfw(data, image_data)`. -/
  detect_nsfw : PyVal → PyVal → PyVal
  /-- `util.is_file_safe(data)`. -/
  is_file_safe : PyVal → Bool
  /-- `json.loads(s)`; `Option.none` models the decode error on invalid
  JSON text. -/
  json_loads : String → Option PyVal

/-- Models `parse_timestamp` (data_classes.py:322): replace `"Z"` with
`"+00:00"` and parse; a non-str argument raises (`Option.none`). -/
def parse_timestamp (env : Env) (v : PyVal) : Option Int :=
  match v with
  | .str s => env.fromisoformat (strReplaceChar s 'Z' "+00:00")
  | _ => Option.none

/-- Models the per-version body of `iter_model_timestamps`
(data_classes.py:327): fall back through `updatedAt`, `publishedAt`,
`createdAt`, the max of the files' `scannedAt`, then the current time. -/
def version_timestamp (env : Env) (version : PyVal) : Option Int := do
  let updated_at ← version.pyget "updatedAt" .none
  if updated_at.truthy then parse_timestamp env updated_at
  else do
    let published_at ← version.pyget "publishedAt" .none
    if published_at.truthy then parse_timestamp env published_at
    else do
      let created_at ← version.pyget "createdAt" .none
      if created_at.truthy then parse_timestamp env created_at
      else do
        let filesVal ← version.pyget "files" (.list [])
        let files ← filesVal.asList
        let scanned ← mapOpt (fun f => f.pyget "scannedAt" .none) files
        let file_timestamps ← mapOpt (parse_timestamp env)
          (scanned.filter PyVal.truthy)
        match pymax file_timestamps with
        | some m => some m
        | Option.none => some env.nowInt

/-- Models `iter_model_timestamps` (data_classes.py:327) run to completion,
as `list(iter_model_timestamps(data))` does in `Model.from_json`. -/
def iter_model_timestamps (env : Env) (model_data : PyVal) :
    Option (List Int) := do
  let versions ← (← model_data.getItem "modelVersions").asList
  mapOpt (version_timestamp env) versions

/-- Mirrors the `Model` NamedTuple (data_classes.py:83). Fields hold dynamic
Python values, as the NamedTuple does not enforce its annotations. -/
structure Model where
  id : PyVal
  name : PyVal
  type : PyVal
  category : PyVal
  nsfw : PyVal
  creator_name : PyVal
  creator_image : PyVal
  image : PyVal
  image_blur_hash : PyVal
  description : PyVal
  updated_at : PyVal
  download_cnt : PyVal
  favorite_cnt : PyVal
  thumbs_up_cnt : PyVal
  thumbs_down_cnt : PyVal
  comment_cnt : PyVal
  rating_cnt : PyVal
  rating_score : PyVal
  tipped_amt_cnt : PyVal

/-- The eight stats counters a model row stores, in source order. -/
structure ModelStats where
  download_cnt : PyVal
  favorite_cnt : PyVal
  thumbs_up_cnt : PyVal
  thumbs_down_cnt : PyVal
  comment_cnt : PyVal
  rating_cnt : PyVal
  rating_score : PyVal
  tipped_amt_cnt : PyVal

/-- The `data["stats"][...]` reads of `Model.from_json` (data_classes.py:133):
the eight stats counters, in source order. -/
def modelStats (stats : PyVal) : Option ModelStats := do
  let download_cnt ← stats.getItem "downloadCount"
  let favorite_cnt ← stats.getItem "favoriteCount"
  let thumbs_up_cnt ← stats.getItem "thumbsUpCount"
  let thumbs_down_cnt ← stats.getItem "thumbsDownCount"
  let comment_cnt ← stats.getItem "commentCount"
  let rating_cnt ← stats.getItem "ratingCount"
  let rating_score ← stats.getItem "rating"
  let tipped_amt_cnt ← stats.getItem "tippedAmountCount"
  some
    { download_cnt := download_cnt
      favorite_cnt := favorite_cnt
      thumbs_up_cnt := thumbs_up_cnt
      thumbs_down_cnt := thumbs_down_cnt
      comment_cnt := comment_cnt
      rating_cnt := rating_cnt
      rating_score := rating_score
      tipped_amt_cnt := tipped_amt_cnt }

/-- The creator branch of `Model.from_json` (data_classes.py:114): creator
name and image when a `creator` key is present, empty strings otherwise. -/
def modelCreator (data : PyVal) : Option (PyVal × PyVal) :=
  if data.hasKey "creator" then do
    let creator ← data.getItem "creator"
    let cn ← creator.getItem "username"
    let ci ← creator.getItem "image"
    some (cn, pyOr ci (.str ""))
  else
    some (PyVal.str "", PyVal.str "")

/-- Models `Model.from_json` (data_classes.py:104). -/
def Model.from_json (env : Env) (data : PyVal) : Option Model := do
  let image_data := env.get_image data
  let timestamps ← iter_model_timestamps env data
  let timestamp : PyVal :=
    match pymax timestamps with
    | some m => .int m
    | Option.none => .float env.nowFloat
  let creator ← modelCreator data
  let id ← data.getItem "id"
  let name ← data.getItem "name"
  let ty ← data.getItem "type"
  let tags ← data.getItem "tags"
  let imageUrl ← image_data.pyget "url" (.str "")
  let imageHash ← image_data.pyget "hash" (.str "")
  let description ← data.getItem "description"
  let stats ← data.getItem "stats"
  let st ← modelStats stats
  some
    { id := id
      name := name
      type := ty
      category := env.select_category tags
      nsfw := env.detect_nsfw data image_data
      creator_name := creator.1
      creator_image := creator.2
      image := imageUrl
      image_blur_hash := pyOr imageHash (.str "")
      description := pyOr description (.str "")
      updated_at := timestamp
      download_cnt := st.download_cnt
      favorite_cnt := st.favorite_cnt
      thumbs_up_cnt := st.thumbs_up_cnt
      thumbs_down_cnt := st.thumbs_down_cnt
      comment_cnt := st.comment_cnt
      rating_cnt := st.rating_cnt
      rating_score := st.rating_score
      tipped_amt_cnt := st.tipped_amt_cnt }

/-- Mirrors the `ModelVersion` NamedTuple (data_classes.py:269). -/
structure ModelVersion where
  id : PyVal
  model_id : PyVal
  name : PyVal
  description : PyVal
  trained_words : PyVal
  base_model : PyVal
  download_cnt : PyVal
  rating_cnt : PyVal
  rating_score : PyVal
  thumbs_up_cnt : PyVal
  thumbs_down_cnt : PyVal

/-- The five stats counters a model-version row stores, in source order. -/
structure VersionStats where
  download_cnt : PyVal
  rating_cnt : PyVal
  rating_score : PyVal
  thumbs_up_cnt : PyVal
  thumbs_down_cnt : PyVal

/-- The `data["stats"][...]` reads of `ModelVersion.from_json`
(data_classes.py:291): the five stats counters, in source order. -/
def versionStats (stats : PyVal) : Option VersionStats := do
  let download_cnt ← stats.getItem "downloadCount"
  let rating_cnt ← stats.getItem "ratingCount"
  let rating_score ← stats.getItem "rating"
  let thumbs_up_cnt ← stats.getItem "thumbsUpCount"
  let thumbs_down_cnt ← stats.getItem "thumbsDownCount"
  some
    { download_cnt := download_cnt
      rating_cnt := rating_cnt
      rating_score := rating_score
      thumbs_up_cnt := thumbs_up_cnt
      thumbs_down_cnt := thumbs_down_cnt }

/-- Models `ModelVersion.from_json` (data_classes.py:282). -/
def ModelVersion.from_json (model_id : PyVal) (data : PyVal) :
    Option ModelVersion := do
  let id ← data.getItem "id"
  let name ← data.getItem "name"
  let description ← data.getItem "description"
  let trained_words ← data.getItem "trainedWords"
  let base_model ← data.pyget "baseModel" (.str "Other")
  let stats ← data.getItem "stats"
  let st ← versionStats stats
  some
    { id := id
      model_id := model_id
      name := name
      description := pyOr description (.str "")
      trained_words := trained_words
      base_model := base_model
      download_cnt := st.download_cnt
      rating_cnt := st.rating_cnt
      rating_score := st.rating_score
      thumbs_up_cnt := st.thumbs_up_cnt
      thumbs_down_cnt := st.thumbs_down_cnt }

/-- Mirrors the `ModelFile` NamedTuple (data_classes.py:168). -/
structure ModelFile where
  id : PyVal
  model_id : PyVal
  model_version_id : PyVal
  is_primary : PyVal
  name : PyVal
  url : PyVal
  size : PyVal
  safe : PyVal
  format : PyVal
  datatype : PyVal
  pruned : PyVal

/-- Models `ModelFile.from_json` (data_classes.py:181).  The source first
pops `trainingResults` from `data["metadata"]`, mutating the dict held by
the caller; the second component of the result is the post-state of `data`
after that mutation. -/
def ModelFile.from_json (env : Env) (model_id : PyVal)
    (model_version_id : PyVal) (data : PyVal) :
    Option (ModelFile × PyVal) := do
  let metadataEntries ← (← data.getItem "metadata").asDict
  let metadata := metadataEntries.filter
    (fun p => decide (p.1 ≠ "trainingResults"))
  let dataAfter := data.setItem "metadata" (.dict metadata)
  let datatype := pyOr ((dictFind metadata "fp").getD (.str "")) (.str "")
  let pruned : PyVal :=
    .bool (! (pyOr ((dictFind metadata "size").getD (.str "")) (.str "")).eqStr
      "full")
  let format := pyOr ((dictFind metadata "format").getD (.str "")) (.str "")
  let id ← dataAfter.getItem "id"
  let is_primary ← dataAfter.pyget "primary" (.bool false)
  let name ← dataAfter.getItem "name"
  let url ← dataAfter.getItem "downloadUrl"
  let size ← dataAfter.getItem "sizeKB"
  some
    ({ id := id
       model_id := model_id
       model_version_id := model_version_id
       is_primary := is_primary
       name := name
       url := url
       size := size
       safe := .bool (env.is_file_safe dataAfter)
       format := format
       datatype := datatype
       pruned := pruned }, dataAfter)

/-- Mirrors the `ModelImage` NamedTuple (data_classes.py:221).  The Python
annotation declares `generation_data: str`, but `from_json` stores a dict. -/
structure ModelImage where
  id : PyVal
  model_id : PyVal
  model_version_id : PyVal
  url : PyVal
  generation_data : PyVal
  blur_hash : PyVal
  width : PyVal
  height : PyVal

/-- The `generation_data` dict built by `ModelImage.from_json`
(data_classes.py:235) from the resolved `meta` dict entries. -/
def generationData (ms : List (String × PyVal)) : PyVal :=
  .dict
    [("prompt", (dictFind ms "prompt").getD (.str "")),
     ("negativePrompt", (dictFind ms "negativePrompt").getD (.str "")),
     ("seed", (dictFind ms "seed").getD (.str "")),
     ("steps", (dictFind ms "steps").getD (.int 20)),
     ("cfgScale", (dictFind ms "cfgScale").getD (.float 7)),
     ("sampler", (dictFind ms "sampler").getD (.str ""))]

/-- Models `ModelImage.from_json` (data_classes.py:231). -/
def ModelImage.from_json (model_id : PyVal) (model_version_id : PyVal)
    (data : PyVal) : Option ModelImage := do
  let metaRaw ← data.pyget "meta" (.dict [])
  let ms ← (pyOr metaRaw (.dict [])).asDict
  let id ← data.getItem "id"
  let url ← data.getItem "url"
  let hash ← data.pyget "hash" (.str "")
  let width ← data.getItem "width"
  let height ← data.getItem "height"
  some
    { id := id
      model_id := model_id
      model_version_id := model_version_id
      url := url
      generation_data := generationData ms
      blur_hash := pyOr hash (.str "")
      width := width
      height := height }

/-- Mirrors the `Page` NamedTuple (data_classes.py:315); note the source
field order `models, versions, images, files`. -/
structure Page where
  models : List Model
  versions : List ModelVersion
  images : List ModelImage
  files : List ModelFile

/-- Models `items_from_model_version` (data_classes.py:27): build the
version, its files filtered to the safe ones, and its images. -/
def items_from_model_version (env : Env) (model_id : PyVal) (data : PyVal) :
    Option (ModelVersion × List ModelFile × List ModelImage) := do
  let version ← ModelVersion.from_json model_id data
  let filesJson ← (← data.getItem "files").asList
  let files ← mapOpt
    (fun f => (ModelFile.from_json env version.model_id version.id f).map
      Prod.fst)
    filesJson
  let files := files.filter (fun file => file.safe.truthy)
  let imagesJson ← (← data.getItem "images").asList
  let images ← mapOpt (ModelImage.from_json version.model_id version.id)
    imagesJson
  some (version, files, images)

/-- Models `items_from_model_json` (data_classes.py:43).  The inner
`Option.none` is the `(None, None, None, None)` returned when the model has
zero versions; the outer `Option` models exceptions. -/
def items_from_model_json (env : Env) (data : PyVal) :
    Option (Option (Model × List ModelVersion × List ModelFile ×
      List ModelImage)) := do
  let model ← Model.from_json env data
  let versionsJson ← (← data.getItem "modelVersions").asList
  let triples ← mapOpt (items_from_model_version env model.id) versionsJson
  let versions := triples.map (fun t => t.1)
  let files := (triples.map (fun t => t.2.1)).flatten
  let images := (triples.map (fun t => t.2.2)).flatten
  if versions.length = 0 then
    some Option.none
  else
    some (some (model, versions, files, images))

/-- The accumulation loop of `deserialise_items` (data_classes.py:67),
skipping models that were dropped for having no versions. -/
def deserialiseLoop (env : Env) :
    List PyVal → Option (List Model × List ModelVersion × List ModelFile ×
      List ModelImage)
  | [] => some ([], [], [], [])
  | data :: rest => do
      let item ← items_from_model_json env data
      let (models, versions, files, images) ← deserialiseLoop env rest
      match item with
      | Option.none => some (models, versions, files, images)
      | some (model, mVersions, mFiles, mImages) =>
          some (model :: models, mVersions ++ versions, mFiles ++ files,
            mImages ++ images)

/-- Models `deserialise_items` (data_classes.py:62). -/
def deserialise_items (env : Env) (page : List PyVal) : Option Page := do
  let (models, versions, files, images) ← deserialiseLoop env page
  some { models := models, versions := versions, images := images,
         files := files }

/-- A database row, as `QSqlRecord.value` exposes it: column name to value. -/
def Rec : Type := String → PyVal

/-- The Python exceptions the controller layer can raise. -/
inductive PyErr where
  | typeError (msg : String)
  | runtimeError (msg : String)
  | valueError (msg : String)
  | attributeError (msg : String)
  | keyError (msg : String)
  | indexError (msg : String)

/-- Models `Model.from_record` (data_classes.py:143). -/
def Model.from_record (r : Rec) : Model :=
  { id := r "id"
    name := r "name"
    type := r "type"
    category := r "category"
    nsfw := r "nsfw"
    creator_name := r "creator_name"
    creator_image := r "creator_image"
    image := r "image"
    image_blur_hash := r "image_blur_hash"
    description := r "description"
    updated_at := r "updated_at"
    download_cnt := r "download_cnt"
    favorite_cnt := r "favorite_cnt"
    thumbs_up_cnt := r "thumbs_up_cnt"
    thumbs_down_cnt := r "thumbs_down_cnt"
    comment_cnt := r "comment_cnt"
    rating_cnt := r "rating_cnt"
    rating_score := r "rating_score"
    tipped_amt_cnt := r "tipped_amt_cnt" }

/-- Python `json.loads(v)` on a column value: requires a str (a non-str
argument raises `TypeError`, undecodable text raises a decode error). -/
def jsonLoadsVal (env : Env) (v : PyVal) : Except PyErr PyVal :=
  match v with
  | .str s =>
      match env.json_loads s with
      | some parsed => .ok parsed
      | Option.none => .error (.valueError "Invalid JSON")
  | _ => .error (.typeError "json.loads expects a str")

/-- Models `ModelVersion.from_record` (data_classes.py:298); the
`trained_words` column goes through `json.loads`. -/
def ModelVersion.from_record (env : Env) (r : Rec) :
    Except PyErr ModelVersion := do
  let trained_words ← jsonLoadsVal env (r "trained_words")
  .ok
    { id := r "id"
      model_id := r "model_id"
      name := r "name"
      description := r "description"
      trained_words := trained_words
      base_model := r "base_model"
      download_cnt := r "download_cnt"
      rating_cnt := r "rating_cnt"
      rating_score := r "rating_score"
      thumbs_up_cnt := r "thumbs_up_cnt"
      thumbs_down_cnt := r "thumbs_down_cnt" }

/-- Models `ModelFile.from_record` (data_classes.py:204). -/
def ModelFile.from_record (r : Rec) : ModelFile :=
  { id := r "id"
    model_id := r "model_id"
    model_version_id := r "model_version_id"
    is_primary := r "is_primary"
    name := r "name"
    url := r "url"
    size := r "size"
    safe := r "safe"
    format := r "format"
    datatype := r "datatype"
    pruned := r "pruned" }

/-- Models `ModelImage.from_record` (data_classes.py:255); the
`generation_data` column goes through `json.loads`. -/
def ModelImage.from_record (env : Env) (r : Rec) :
    Except PyErr ModelImage := do
  let generation_data ← jsonLoadsVal env (r "generation_data")
  .ok
    { id := r "id"
      model_id := r "model_id"
      model_version_id := r "model_version_id"
      url := r "url"
      generation_data := generation_data
      blur_hash := r "blur_hash"
      width := r "width"
      height := r "height" }

/-- Effectful map in the `Except` monad, mirroring a Python loop that can
raise at each element. -/
def mapExc (f : α → Except PyErr β) : List α → Except PyErr (List β)
  | [] => .ok []
  | x :: xs => do
      let y ← f x
      let ys ← mapExc f xs
      .ok (y :: ys)

/-- Require a Python str, as str-only operations (`os.path.join`,
concatenation, `QUrl`) do; a non-str raises `TypeError`. -/
def expectStr (v : PyVal) : Except PyErr String :=
  match v with
  | .str s => .ok s
  | _ => .error (.typeError "expected str")

/-- Python `",".join(words)`: joins an iterable of strs; a non-str element
or a non-iterable receiver raises `TypeError`.  The code only reaches it
with the decoded `trained_words` value. -/
def joinComma (v : PyVal) : Except PyErr String :=
  match v with
  | .list xs => do
      let ss ← mapExc expectStr xs
      .ok (String.intercalate "," ss)
  | .str s => .ok (String.intercalate "," (s.data.map Char.toString))
  | _ => .error (.typeError "can only join an iterable")

/-- Models `os.path.isabs` on POSIX paths: the path starts with a slash. -/
def isAbs (s : String) : Bool :=
  match s.data with
  | [] => false
  | c :: _ => c = '/'

/-- Whether a POSIX path ends with a slash. -/
def endsSlash (s : String) : Bool :=
  match s.data.reverse with
  | [] => false
  | c :: _ => c = '/'

/-- Models `os.path.join` on POSIX paths for two components. -/
def pathJoin (a b : String) : String :=
  if isAbs b then b
  else if a = "" ∨ endsSlash a then a ++ b
  else a ++ "/" ++ b

/-- Models `os.path.split` on POSIX paths: split at the last slash; the head
keeps a run of leading slashes but drops other trailing slashes. -/
def pathSplit (p : String) : String × String :=
  let cs := p.data
  let revTail := cs.reverse.takeWhile (fun c => c ≠ '/')
  let headAll := (cs.reverse.dropWhile (fun c => c ≠ '/')).reverse
  let head :=
    if headAll.all (fun c => c = '/') then headAll
    else (headAll.reverse.dropWhile (fun c => c = '/')).reverse
  (String.mk head, String.mk revTail.reverse)

/-- The extension split of `os.path.splitext` on a path with no directory
part: split at the last dot when a non-dot character precedes it. -/
def lastDotSplit (base : List Char) : List Char × List Char :=
  match base.reverse.findIdx? (fun c => c = '.') with
  | Option.none => (base, [])
  | some k =>
      let i := base.length - 1 - k
      if (base.take i).any (fun c => c ≠ '.') then (base.take i, base.drop i)
      else (base, [])

/-- Models `os.path.splitext` on POSIX paths. -/
def splitExt (p : String) : String × String :=
  let cs := p.data
  let tailLen := (cs.reverse.takeWhile (fun c => c ≠ '/')).length
  let pre := cs.take (cs.length - tailLen)
  let base := cs.drop (cs.length - tailLen)
  let (stem, ext) := lastDotSplit base
  (String.mk (pre ++ stem), String.mk ext)

/-- Substitute one replacement field of `str.format` when the only supplied
argument is the keyword `category`.  A field whose name is anything else
raises `KeyError`; an automatic or numeric field (`\x7b\x7d`, `\x7b0\x7d`)
raises `IndexError`, as no positional arguments are supplied; an open brace
inside the field raises `ValueError`.  A conversion, format spec, or
attribute/index access on `category` itself (e.g. `\x7bcategory:>10\x7d`)
is not modelled and conservatively raises, where CPython would apply
formatting; this can only narrow theorems conditioned on an `ok` result. -/
def formatField (category : PyVal) (field : List Char) :
    Except PyErr (List Char) :=
  if field.any (fun c => c = '\x7b') then
    .error (.valueError "unexpected open brace in field name")
  else
    let name := field.takeWhile
      (fun c => c ≠ '!' ∧ c ≠ ':' ∧ c ≠ '.' ∧ c ≠ '[')
    if name = "category".data then
      if field = name then .ok category.pyStr.data
      else
        .error (.valueError
          "conversion, format spec or access on category is not modelled")
    else if name.all (fun c => c.isDigit) then
      .error (.indexError "Replacement index out of range")
    else
      .error (.keyError (String.mk name))

/-- The scan of `str.format` over the format string: doubled braces are
escapes for literal braces, a replacement field runs to the next closing
brace and is substituted by `formatField`, and a lone unmatched brace
raises `ValueError`.  `fuel` bounds the recursion; the scanner consumes at
least one character per step, so any value at least the string's length is
exact and the fuel-exhausted branch is unreachable from `formatCategory`. -/
def formatScan (category : PyVal) :
    Nat → List Char → Except PyErr (List Char)
  | _, [] => .ok []
  | 0, _ => .error (.valueError "format scan fuel exhausted")
  | fuel + 1, c :: rest =>
      if c = '\x7b' then
        match rest with
        | [] => .error (.valueError "Single open brace in format string")
        | d :: rest2 =>
            if d = '\x7b' then do
              let tailOut ← formatScan category fuel rest2
              .ok ('\x7b' :: tailOut)
            else
              let field := rest.takeWhile (fun x => x ≠ '\x7d')
              match rest.drop field.length with
              | [] =>
                  .error (.valueError "Single open brace in format string")
              | _ :: rest2 => do
                  let sub ← formatField category field
                  let tailOut ← formatScan category fuel rest2
                  .ok (sub ++ tailOut)
      else if c = '\x7d' then
        match rest with
        | [] => .error (.valueError "Single closing brace in format string")
        | d :: rest2 =>
            if d = '\x7d' then do
              let tailOut ← formatScan category fuel rest2
              .ok ('\x7d' :: tailOut)
            else
              .error (.valueError "Single closing brace in format string")
      else do
        let tailOut ← formatScan category fuel rest
        .ok (c :: tailOut)

/-- Models `final_path.format(category=model.category)`
(controller.py:133): scan the path, rewriting `\x7b\x7b`/`\x7d\x7d`
escapes, substituting `\x7bcategory\x7d` fields, and raising on a lone
brace or on any other replacement field, as `str.format` does. -/
def formatCategory (s : String) (category : PyVal) : Except PyErr String := do
  let out ← formatScan category s.data.length s.data
  .ok (String.mk out)

/-- External state of `ModelDownloadController`: settings, dialogs, the
filesystem, the environment, and the SQL connection.  Query results are
functions of the bound parameter value. -/
structure Ctrl where
  /-- `settings.value("paths/root", os.path.expanduser("~"))`. -/
  root : String
  /-- `settings.value("paths/" + str(model.type))`; `PyVal.none` when the
  setting is unset. -/
  typePath : PyVal → PyVal
  /-- The path picked in the Save-As dialog, `""` when cancelled. -/
  saveDialogPath : String
  /-- `os.path.exists`. -/
  fileExists : String → Bool
  /-- Whether the user answers Yes to the overwrite prompt for a path. -/
  overwriteYes : String → Bool
  /-- `"?token=" + key` when `CIVITAI_API_KEY` is set, else `""`. -/
  apiKeySuffix : String
  /-- Whether the `model_version` query executes, keyed by `model.id`. -/
  execVersionQuery : PyVal → Bool
  /-- The row of the `model_version` query, keyed by `model.id`. -/
  versionRecord : PyVal → Rec
  /-- Whether the `model_file` query executes, keyed by `model_version.id`. -/
  execFileQuery : PyVal → Bool
  /-- The row of the `model_file` query, keyed by `model_version.id`. -/
  fileRecord : PyVal → Rec
  /-- Whether the `model_image` query executes, keyed by `model_version.id`. -/
  execImageQuery : PyVal → Bool
  /-- The rows of the `model_image` query, keyed by `model_version.id`. -/
  imageRecords : PyVal → List Rec
  /-- The row `get_image` reads after a single `next()`. -/
  firstImageRecord : PyVal → Rec

/-- Models the `hier_structure` format expression of `downloadModelFile`
(controller.py:94).  The conditional expression binds the whole second
argument: `model.category.replace(...) + "_nsfw" if model.nsfw else ""`, so
a falsy nsfw flag yields an empty second component and never touches the
category.  `Option.none` models the `AttributeError` of `.replace` on a
non-str. -/
def hier_structure (model : Model) (version : ModelVersion) :
    Option String := do
  let base ← version.base_model.asStr
  let second ←
    if model.nsfw.truthy then do
      let cat ← model.category.asStr
      some (strReplaceChar cat ' ' "_" ++ "_nsfw")
    else
      some ""
  let name ← model.name.asStr
  let vname ← version.name.asStr
  some ("/" ++ strReplaceChar base ' ' "_" ++ "/" ++ second ++ "/" ++
    strReplaceChar name ' ' "_" ++ "/" ++ strReplaceChar vname ' ' "_")

/-- Models `ModelDownloadController.get_image` (controller.py:182). -/
def get_image (env : Env) (ctrl : Ctrl) (model_version : ModelVersion) :
    Except PyErr ModelImage :=
  if ctrl.execImageQuery model_version.id then
    ModelImage.from_record env (ctrl.firstImageRecord model_version.id)
  else
    .error (.runtimeError "Failed to execute query")

/-- Models `ModelDownloadController.get_image_list` (controller.py:202). -/
def get_image_list (env : Env) (ctrl : Ctrl) (model_version : ModelVersion) :
    Except PyErr (List ModelImage) :=
  if ctrl.execImageQuery model_version.id then
    mapExc (ModelImage.from_record env) (ctrl.imageRecords model_version.id)
  else
    .error (.runtimeError "Failed to execute query")

/-- The preview-image loop of `downloadModelFile` (controller.py:141):
the paths written for the images, in order.  Each image gets the path
`<stem>_<i>.jpg` next to the model file, but `_download` runs only when the
image url is truthy; `QUrl` on a truthy non-str raises `TypeError`. -/
def imageJpgWrites (dirname stem : String) :
    Nat → List ModelImage → Except PyErr (List String)
  | _, [] => .ok []
  | i, img :: rest =>
      let image_path := pathJoin dirname (stem ++ "_" ++ toString i ++ ".jpg")
      if img.url.truthy then do
        let _ ← expectStr img.url
        let tailWrites ← imageJpgWrites dirname stem (i + 1) rest
        .ok (image_path :: tailWrites)
      else
        imageJpgWrites dirname stem (i + 1) rest

/-- Models `ModelDownloadController.downloadModelFile` (controller.py:79).
The result is the list of file paths written (preview images, the JSON and
Markdown sidecars, then the model file itself); the early returns yield an
empty list.  GUI geometry, logging, `os.makedirs` and `os.remove` are
effects without modelled state. -/
def downloadModelFile (env : Env) (ctrl : Ctrl) (model : Model)
    (version : ModelVersion) (file : ModelFile) :
    Except PyErr (List String) := do
  let filename := file.name
  let root := ctrl.root
  let hier ←
    match hier_structure model version with
    | some h => Except.ok h
    | Option.none => Except.error (.attributeError "replace needs a str")
  let model_type_dir ←
    match ctrl.typePath model.type with
    | .str s => Except.ok (s ++ hier)
    | _ => Except.error (.typeError "unsupported operand types for +")
  let final_path ←
    if model_type_dir ≠ "" ∧ isAbs model_type_dir then do
      let fname ← expectStr filename
      Except.ok (pathJoin model_type_dir fname)
    else if model_type_dir ≠ "" then do
      let fname ← expectStr filename
      Except.ok (pathJoin (pathJoin root model_type_dir) fname)
    else
      Except.ok ctrl.saveDialogPath
  if final_path = "" then .ok []
  else if ctrl.fileExists final_path ∧ ¬ ctrl.overwriteYes final_path then
    .ok []
  else do
    let final_path ← formatCategory final_path model.category
    let dirname := (pathSplit final_path).1
    let stem := (splitExt (pathSplit final_path).2).1
    let images ← get_image_list env ctrl version
    let imgWrites ← imageJpgWrites dirname stem 0 images
    let json_path := pathJoin dirname (stem ++ ".json")
    let info_path := pathJoin dirname (stem ++ ".md")
    let _ ← joinComma version.trained_words
    let _ ← expectStr version.description
    let _ ← expectStr model.description
    let url ← expectStr file.url
    let _ := url ++ ctrl.apiKeySuffix
    Except.ok (imgWrites ++ [json_path, info_path, final_path])

/-- Models `ModelDownloadController.downloadModelVersion`
(controller.py:56): fetch the newest safe file of the version and download
it; a failed query raises `RuntimeError`. -/
def downloadModelVersion (env : Env) (ctrl : Ctrl) (model : Model)
    (model_version : ModelVersion) : Except PyErr (List String) :=
  if ctrl.execFileQuery model_version.id then
    downloadModelFile env ctrl model model_version
      (ModelFile.from_record (ctrl.fileRecord model_version.id))
  else
    .error (.runtimeError "Failed to execute query")

/-- Models `ModelDownloadController.downloadModel` (controller.py:34):
fetch the newest version of the model and download it; a failed query
raises `RuntimeError`. -/
def downloadModel (env : Env) (ctrl : Ctrl) (model : Model) :
    Except PyErr (List String) :=
  if ctrl.execVersionQuery model.id then do
    let model_version ← ModelVersion.from_record env
      (ctrl.versionRecord model.id)
    downloadModelVersion env ctrl model model_version
  else
    .error (.runtimeError "Failed to execute query")

/-- The dynamic argument of `ModelDownloadController.download`: one of the
three entity types, or any other Python object (carrying the text of
`type(model)` for the error message). -/
inductive DownloadArg where
  | model (m : Model)
  | version (v : ModelVersion)
  | file (f : ModelFile)
  | other (typeName : String)

/-- Models `ModelDownloadController.download` (controller.py:24).  The
`isinstance` dispatch calls `self.downloadModelVersion(model)` and
`self.downloadModelFile(model)` with a single argument, but those methods
take two and three required positional arguments (beyond `self`), so in
Python both calls raise `TypeError` before the method body runs. -/
def download (env : Env) (ctrl : Ctrl) : DownloadArg →
    Except PyErr (List String)
  | .model m => downloadModel env ctrl m
  | .version _ =>
      .error (.typeError
        "downloadModelVersion() missing 1 required positional argument: model_version")
  | .file _ =>
      .error (.typeError
        "downloadModelFile() missing 2 required positional arguments: model_version and model_file")
  | .other typeName =>
      .error (.typeError ("Invalid data type: " ++ typeName))

/-- Spec-side timestamp resolution, written from the spec text for
comparison against `version_timestamp`: the per-version timestamp falls
back through the fields `updatedAt`, then `publishedAt`, then `createdAt`
(the first truthy one is parsed), then the maximum of the files'
`scannedAt` timestamps, then the current time. -/
def spec_resolve_timestamp (env : Env) (version : PyVal) : Option Int := do
  let fields ← mapOpt (fun k => version.pyget k .none)
    ["updatedAt", "publishedAt", "createdAt"]
  match fields.find? PyVal.truthy with
  | some f => parse_timestamp env f
  | Option.none => do
      let filesVal ← version.pyget "files" (.list [])
      let files ← filesVal.asList
      let scanned ← mapOpt (fun f => f.pyget "scannedAt" .none) files
      let file_timestamps ← mapOpt (parse_timestamp env)
        (scanned.filter PyVal.truthy)
      match pymax file_timestamps with
      | some m => some m
      | Option.none => some env.nowInt

/-! Concrete sample values used to instantiate the theorems below. -/

/-- A concrete environment for evaluating the embedding. -/
def env0 : Env :=
  { fromisoformat := fun s => some (s.length : Int)
    nowInt := 100
    nowFloat := 100
    get_image := fun _ => .dict []
    select_category := fun _ => .str "character"
    detect_nsfw := fun _ _ => .bool false
    is_file_safe := fun d => ! d.hasKey "virus"
    json_loads := fun s =>
      if s = "[]" then some (.list [])
      else if s = "7" then some (.int 7)
      else Option.none }

/-- A sample safe file JSON object. -/
def fileJson1 : PyVal :=
  .dict
    [("id", .int 11),
     ("metadata", .dict
       [("fp", .str "fp16"), ("size", .str "full"),
        ("trainingResults", .dict [("epochs", .int 3)])]),
     ("name", .str "model_file.safetensors"),
     ("downloadUrl", .str "https://host/f"),
     ("sizeKB", .int 10),
     ("primary", .bool true),
     ("scannedAt", .str "2023-01-02T00:00:00Z")]

/-- A sample unsafe file JSON object (`env0` flags the `virus` key). -/
def fileJson2 : PyVal :=
  .dict
    [("id", .int 12),
     ("metadata", .dict []),
     ("name", .str "evil.pickle"),
     ("downloadUrl", .str "https://host/g"),
     ("sizeKB", .int 9),
     ("virus", .bool true)]

/-- A sample image JSON object. -/
def imageJson1 : PyVal :=
  .dict
    [("id", .int 21),
     ("url", .str "https://host/i"),
     ("hash", .str "blur"),
     ("width", .int 512),
     ("height", .int 512),
     ("meta", .dict [("prompt", .str "a cat"), ("seed", .int 7)])]

/-- A sample version stats JSON object. -/
def statsV0 : PyVal :=
  .dict
    [("downloadCount", .int 5), ("ratingCount", .int 2),
     ("rating", .float 4), ("thumbsUpCount", .int 3),
     ("thumbsDownCount", .int 0)]

/-- A sample model-version JSON object. -/
def versionJson1 : PyVal :=
  .dict
    [("id", .int 31),
     ("name", .str "v1"),
     ("description", .none),
     ("trainedWords", .list [.str "w1"]),
     ("baseModel", .str "SD 1.5"),
     ("stats", statsV0),
     ("files", .list [fileJson1, fileJson2]),
     ("images", .list [imageJson1]),
     ("updatedAt", .str "2023-01-03T00:00:00Z")]

/-- A sample model stats JSON object. -/
def statsM0 : PyVal :=
  .dict
    [("downloadCount", .int 50), ("favoriteCount", .int 5),
     ("thumbsUpCount", .int 30), ("thumbsDownCount", .int 1),
     ("commentCount", .int 4), ("ratingCount", .int 20),
     ("rating", .float 4), ("tippedAmountCount", .int 0)]

/-- A sample model JSON object with one version. -/
def modelJson1 : PyVal :=
  .dict
    [("id", .int 1),
     ("name", .str "My Model"),
     ("type", .str "LORA"),
     ("tags", .list [.str "character"]),
     ("description", .str "d"),
     ("stats", statsM0),
     ("modelVersions", .list [versionJson1]),
     ("creator", .dict [("username", .str "u"), ("image", .none)])]

/-- A concrete nsfw model row. -/
def modelNsfw9 : Model :=
  { id := .int 1, name := .str "My Model", type := .str "LORA",
    category := .str "anime art", nsfw := .bool true,
    creator_name := .str "", creator_image := .str "", image := .str "",
    image_blur_hash := .str "", description := .str "",
    updated_at := .int 0, download_cnt := .int 0, favorite_cnt := .int 0,
    thumbs_up_cnt := .int 0, thumbs_down_cnt := .int 0,
    comment_cnt := .int 0, rating_cnt := .int 0, rating_score := .int 0,
    tipped_amt_cnt := .int 0 }

/-- The same model row with the nsfw flag cleared. -/
def modelSfw9 : Model :=
  { modelNsfw9 with nsfw := .bool false }

/-- A concrete model-version row. -/
def version9 : ModelVersion :=
  { id := .int 31, model_id := .int 1, name := .str "v 1",
    description := .str "", trained_words := .list [],
    base_model := .str "SD 1.5", download_cnt := .int 0,
    rating_cnt := .int 0, rating_score := .int 0,
    thumbs_up_cnt := .int 0, thumbs_down_cnt := .int 0 }

/-- A sample model JSON object with an empty `modelVersions` list. -/
def modelJson2 : PyVal :=
  .dict
    [("id", .int 2),
     ("name", .str "Empty Model"),
     ("type", .str "LORA"),
     ("tags", .list []),
     ("description", .none),
     ("stats", statsM0),
     ("modelVersions", .list [])]

/-- A concrete `model_version` row. -/
def recVersion0 : Rec := fun c =>
  if c = "trained_words" then .str "[]"
  else if c = "base_model" then .str "SD 1.5"
  else if c = "name" then .str "v1"
  else if c = "description" then .str ""
  else .int 0

/-- A concrete `model_file` row. -/
def recFile0 : Rec := fun c =>
  if c = "name" then .str "file.safetensors"
  else if c = "url" then .str "https://host/f"
  else .int 0

/-- A concrete `model_image` row with a usable url. -/
def recImage0 : Rec := fun c =>
  if c = "generation_data" then .str "[]"
  else if c = "url" then .str "https://host/i"
  else .int 0

/-- A concrete `model_image` row with an empty url. -/
def recImageEmptyUrl : Rec := fun c =>
  if c = "generation_data" then .str "[]"
  else if c = "url" then .str ""
  else .int 0

/-- A concrete controller state where every query succeeds. -/
def ctrl0 : Ctrl :=
  { root := "/home/rob"
    typePath := fun _ => .str "/models/Lora"
    saveDialogPath := ""
    fileExists := fun _ => false
    overwriteYes := fun _ => true
    apiKeySuffix := ""
    execVersionQuery := fun _ => true
    versionRecord := fun _ => recVersion0
    execFileQuery := fun _ => true
    fileRecord := fun _ => recFile0
    execImageQuery := fun _ => true
    imageRecords := fun _ => [recImage0]
    firstImageRecord := fun _ => recImage0 }

/-- `ctrl0` with the single preview image carrying an empty url. -/
def ctrlEmptyUrl : Ctrl :=
  { ctrl0 with imageRecords := fun _ => [recImageEmptyUrl] }

/-- The `ModelFile` read back from `recFile0`. -/
def fileRow0 : ModelFile := ModelFile.from_record recFile0

/-- The `ModelImage` read back from `recImage0`. -/
def imgWeb0 : ModelImage :=
  { id := .int 0, model_id := .int 0, model_version_id := .int 0,
    url := .str "https://host/i", generation_data := .list [],
    blur_hash := .int 0, width := .int 0, height := .int 0 }

/-- The `ModelImage` read back from `recImageEmptyUrl`. -/
def imgEmptyUrl : ModelImage :=
  { imgWeb0 with url := .str "" }

/-! General lemmas about the embedding combinators. -/

theorem mapOpt_length {f : α → Option β} :
    ∀ {xs : List α} {ys : List β}, mapOpt f xs = some ys →
      ys.length = xs.length := by
  intro xs
  induction xs with
  | nil =>
      intro ys h
      simp only [mapOpt, Option.some.injEq] at h
      simp [← h]
  | cons x xs ih =>
      intro ys h
      simp only [mapOpt, Option.bind_eq_bind, Option.bind_eq_some,
        Option.some.injEq] at h
      obtain ⟨y, _, ys', hys', rfl⟩ := h
      simp [ih hys']

theorem mapOpt_mem {f : α → Option β} :
    ∀ {xs : List α} {ys : List β}, mapOpt f xs = some ys →
      ∀ {b : β}, b ∈ ys → ∃ a ∈ xs, f a = some b := by
  intro xs
  induction xs with
  | nil =>
      intro ys h b hb
      simp only [mapOpt, Option.some.injEq] at h
      subst h
      cases hb
  | cons x xs ih =>
      intro ys h b hb
      simp only [mapOpt, Option.bind_eq_bind, Option.bind_eq_some,
        Option.some.injEq] at h
      obtain ⟨y, hy, ys', hys', rfl⟩ := h
      rcases List.mem_cons.mp hb with rfl | hb'
      · exact ⟨x, List.mem_cons_self x xs, hy⟩
      · obtain ⟨a, ha, hfa⟩ := ih hys' hb'
        exact ⟨a, List.mem_cons_of_mem x ha, hfa⟩

theorem pymax_of_ne_nil {xs : List Int} (h : xs ≠ []) :
    ∃ m, pymax xs = some m := by
  cases xs with
  | nil => exact absurd rfl h
  | cons x xs => exact ⟨xs.foldl max x, rfl⟩

/-! Lemmas for claim C1: timestamp resolution. -/

theorem version_timestamp_eq_spec (env : Env) (v : PyVal) :
    version_timestamp env v = spec_resolve_timestamp env v := by
  cases v <;> try rfl
  case dict es =>
    simp only [version_timestamp, spec_resolve_timestamp, PyVal.pyget,
      mapOpt, Option.bind_eq_bind, Option.bind, List.find?]
    cases hu : ((dictFind es "updatedAt").getD PyVal.none).truthy <;>
      cases hp : ((dictFind es "publishedAt").getD PyVal.none).truthy <;>
        cases hc : ((dictFind es "createdAt").getD PyVal.none).truthy <;>
          simp [hu, hp, hc]

/-- C1: for every model JSON object, the per-version timestamp is resolved
by falling back through `updatedAt`, then `publishedAt`, then `createdAt`,
then the maximum of the files' `scannedAt` timestamps, then the current
time (`version_timestamp` agrees everywhere with the spec-side
`spec_resolve_timestamp`); and the model's `updated_at` field equals the
maximum of these per-version timestamps across all of its versions. -/
theorem model_updated_at_is_max_version_timestamp
    (env : Env) (data : PyVal) (vs : List PyVal) (m : Model)
    (hmv : data.getItem "modelVersions" = some (.list vs))
    (hne : vs ≠ [])
    (hm : Model.from_json env data = some m) :
    (∀ v, version_timestamp env v = spec_resolve_timestamp env v) ∧
    some m.updated_at =
      ((mapOpt (version_timestamp env) vs).bind pymax).map PyVal.int := by
  refine ⟨version_timestamp_eq_spec env, ?_⟩
  have hiter : iter_model_timestamps env data =
      mapOpt (version_timestamp env) vs := by
    simp [iter_model_timestamps, hmv, PyVal.asList]
  simp only [Model.from_json, hiter, Option.bind_eq_bind, Option.bind_eq_some,
    Option.some.injEq] at hm
  obtain ⟨ts, hts, hm⟩ := hm
  obtain ⟨creator, hcreator, hm⟩ := hm
  obtain ⟨idv, hid, hm⟩ := hm
  obtain ⟨namev, hname, hm⟩ := hm
  obtain ⟨tyv, hty, hm⟩ := hm
  obtain ⟨tagsv, htags, hm⟩ := hm
  obtain ⟨iurl, hiurl, hm⟩ := hm
  obtain ⟨ihash, hihash, hm⟩ := hm
  obtain ⟨descv, hdesc, hm⟩ := hm
  obtain ⟨statsv, hstats, hm⟩ := hm
  obtain ⟨st, hst, hm⟩ := hm
  subst hm
  have hlen : ts.length = vs.length := mapOpt_length hts
  have htsne : ts ≠ [] := by
    intro h0
    apply hne
    rw [h0] at hlen
    exact List.length_eq_zero.mp hlen.symm
  obtain ⟨mx, hmx⟩ := pymax_of_ne_nil htsne
  rw [hts]
  simp only [Option.some_bind, hmx, Option.map_some']

/-- C1 witness: the claim instantiated at a concrete model JSON object
with one version carrying an `updatedAt` field. -/
theorem model_updated_at_is_max_version_timestamp_witness :
    modelJson1.getItem "modelVersions" = some (.list [versionJson1]) ∧
    ([versionJson1] : List PyVal) ≠ [] ∧
    (Model.from_json env0 modelJson1).isSome = true ∧
    ((∀ v, version_timestamp env0 v = spec_resolve_timestamp env0 v) ∧
      (Model.from_json env0 modelJson1).map Model.updated_at =
        ((mapOpt (version_timestamp env0) [versionJson1]).bind pymax).map
          PyVal.int) := by
  have hex : ∃ m, Model.from_json env0 modelJson1 = some m := ⟨_, rfl⟩
  obtain ⟨m, hm⟩ := hex
  have main := model_updated_at_is_max_version_timestamp env0 modelJson1
    [versionJson1] m rfl (by simp) hm
  refine ⟨rfl, by simp, by rw [hm]; rfl, main.1, ?_⟩
  rw [hm, Option.map_some']
  exact main.2

/-! Lemmas for claim C2: models with no versions are dropped. -/

theorem deserialiseLoop_cons_dropped (env : Env) (data : PyVal)
    (post : List PyVal)
    (hnone : items_from_model_json env data = some Option.none) :
    deserialiseLoop env (data :: post) = deserialiseLoop env post := by
  simp only [deserialiseLoop, hnone, Option.bind_eq_bind, Option.some_bind]
  cases h : deserialiseLoop env post with
  | none => rfl
  | some t =>
      obtain ⟨ms, vs, fs, is⟩ := t
      rfl

theorem deserialiseLoop_append_dropped (env : Env) (data : PyVal)
    (hnone : items_from_model_json env data = some Option.none) :
    ∀ pre post : List PyVal,
      deserialiseLoop env (pre ++ data :: post) =
        deserialiseLoop env (pre ++ post) := by
  intro pre
  induction pre with
  | nil =>
      intro post
      simpa using deserialiseLoop_cons_dropped env data post hnone
  | cons d pre ih =>
      intro post
      simp only [List.cons_append, deserialiseLoop, List.append_eq, ih post]

/-- C2: a model JSON object whose `modelVersions` list is empty is dropped
entirely: `items_from_model_json` returns no entities for it, and the
`Page` built by `deserialise_items` is the same as if the object were not
in the input page at all. -/
theorem empty_versions_model_dropped (env : Env) (data : PyVal)
    (hmv : data.getItem "modelVersions" = some (.list [])) :
    (∀ r, items_from_model_json env data = some r → r = Option.none) ∧
    (items_from_model_json env data = some Option.none →
      ∀ pre post : List PyVal,
        deserialise_items env (pre ++ data :: post) =
          deserialise_items env (pre ++ post)) := by
  constructor
  · intro r h
    simp only [items_from_model_json, Option.bind_eq_bind, Option.bind_eq_some,
      Option.some.injEq] at h
    obtain ⟨model, hmodel, h⟩ := h
    obtain ⟨mv, hmvv, h⟩ := h
    rw [hmv] at hmvv
    obtain rfl : PyVal.list [] = mv := Option.some.inj hmvv
    simp only [PyVal.asList] at h
    obtain ⟨a, ha, h⟩ := h
    obtain rfl : ([] : List PyVal) = a := Option.some.inj ha
    obtain ⟨b, hb, h⟩ := h
    simp only [mapOpt, Option.some.injEq] at hb
    subst hb
    simp only [List.map_nil, List.length_nil, if_true, Option.some.injEq] at h
    exact h.symm
  · intro hnone pre post
    simp only [deserialise_items,
      deserialiseLoop_append_dropped env data hnone pre post]

/-- C2 witness: a concrete page where the second model JSON object has an
empty `modelVersions` list and yields no rows at all. -/
theorem empty_versions_model_dropped_witness :
    modelJson2.getItem "modelVersions" = some (.list []) ∧
    (∀ r, items_from_model_json env0 modelJson2 = some r →
      r = Option.none) ∧
    deserialise_items env0 [modelJson1, modelJson2] =
      deserialise_items env0 [modelJson1] := by
  have main := empty_versions_model_dropped env0 modelJson2 rfl
  exact ⟨rfl, main.1, by simpa using main.2 rfl [modelJson1] []⟩

/-! Lemmas for claims C3 and C4: safety filtering and referential closure. -/

theorem ModelFile.from_json_fields {env : Env} {mid vid data : PyVal}
    {f : ModelFile} {d' : PyVal}
    (h : ModelFile.from_json env mid vid data = some (f, d')) :
    f.model_id = mid ∧ f.model_version_id = vid ∧
    f.safe = .bool (env.is_file_safe d') := by
  simp only [ModelFile.from_json, Option.bind_eq_bind, Option.bind_eq_some,
    Option.some.injEq] at h
  obtain ⟨mdv, hmdv, h⟩ := h
  obtain ⟨me, hme, h⟩ := h
  obtain ⟨idv, hid, h⟩ := h
  obtain ⟨ipv, hip, h⟩ := h
  obtain ⟨namev, hname, h⟩ := h
  obtain ⟨urlv, hurl, h⟩ := h
  obtain ⟨sizev, hsize, h⟩ := h
  obtain ⟨hf, hd⟩ := Prod.mk.inj h
  subst hf
  subst hd
  exact ⟨rfl, rfl, rfl⟩

theorem ModelVersion.from_json_model_id {mid data : PyVal}
    {v : ModelVersion} (h : ModelVersion.from_json mid data = some v) :
    v.model_id = mid := by
  simp only [ModelVersion.from_json, Option.bind_eq_bind, Option.bind_eq_some,
    Option.some.injEq] at h
  obtain ⟨idv, hid, h⟩ := h
  obtain ⟨namev, hname, h⟩ := h
  obtain ⟨descv, hdesc, h⟩ := h
  obtain ⟨twv, htw, h⟩ := h
  obtain ⟨bmv, hbm, h⟩ := h
  obtain ⟨statsv, hstats, h⟩ := h
  obtain ⟨st, hst, h⟩ := h
  subst h
  rfl

theorem ModelImage.from_json_ids {mid vid data : PyVal} {im : ModelImage}
    (h : ModelImage.from_json mid vid data = some im) :
    im.model_id = mid ∧ im.model_version_id = vid := by
  simp only [ModelImage.from_json, Option.bind_eq_bind, Option.bind_eq_some,
    Option.some.injEq] at h
  obtain ⟨metaRaw, hmeta, h⟩ := h
  obtain ⟨ms, hms, h⟩ := h
  obtain ⟨idv, hid, h⟩ := h
  obtain ⟨urlv, hurl, h⟩ := h
  obtain ⟨hashv, hhash, h⟩ := h
  obtain ⟨widthv, hwidth, h⟩ := h
  obtain ⟨heightv, hheight, h⟩ := h
  subst h
  exact ⟨rfl, rfl⟩

theorem items_from_model_version_fields {env : Env} {mid data : PyVal}
    {v : ModelVersion} {fs : List ModelFile} {is : List ModelImage}
    (h : items_from_model_version env mid data = some (v, fs, is)) :
    v.model_id = mid ∧
    (∀ f ∈ fs, f.model_id = v.model_id ∧ f.model_version_id = v.id ∧
      f.safe = PyVal.bool true) ∧
    (∀ im ∈ is, im.model_id = v.model_id ∧ im.model_version_id = v.id) := by
  simp only [items_from_model_version, Option.bind_eq_bind, Option.bind_eq_some,
    Option.some.injEq] at h
  obtain ⟨version, hversion, h⟩ := h
  obtain ⟨fj, hfj, h⟩ := h
  obtain ⟨filesJson, hfilesJson, h⟩ := h
  obtain ⟨files0, hfiles0, h⟩ := h
  obtain ⟨ij, hij, h⟩ := h
  obtain ⟨imagesJson, himagesJson, h⟩ := h
  obtain ⟨images0, himages0, h⟩ := h
  obtain ⟨hv, hfs, his⟩ := Prod.mk.inj h |>.imp id Prod.mk.inj
  subst hv
  subst hfs
  subst his
  refine ⟨ModelVersion.from_json_model_id hversion, ?_, ?_⟩
  · intro f hf
    obtain ⟨hmem, htruthy⟩ := List.mem_filter.mp hf
    obtain ⟨a, _, hfa⟩ := mapOpt_mem hfiles0 hmem
    obtain ⟨pair, hpair, hfst⟩ := Option.map_eq_some'.mp hfa
    obtain ⟨pf, pd⟩ := pair
    obtain rfl : pf = f := hfst
    obtain ⟨h1, h2, h3⟩ := ModelFile.from_json_fields hpair
    refine ⟨h1, h2, ?_⟩
    rw [h3] at htruthy ⊢
    simp only [PyVal.truthy] at htruthy
    rw [htruthy]
  · intro im him
    obtain ⟨a, _, hia⟩ := mapOpt_mem himages0 him
    exact ModelImage.from_json_ids hia

theorem items_from_model_json_fields {env : Env} {data : PyVal} {m : Model}
    {vs : List ModelVersion} {fs : List ModelFile} {is : List ModelImage}
    (h : items_from_model_json env data = some (some (m, vs, fs, is))) :
    (∀ v ∈ vs, v.model_id = m.id) ∧
    (∀ f ∈ fs, (∃ v ∈ vs, f.model_version_id = v.id) ∧
      f.safe = PyVal.bool true) ∧
    (∀ im ∈ is, ∃ v ∈ vs, im.model_version_id = v.id) := by
  simp only [items_from_model_json, Option.bind_eq_bind, Option.bind_eq_some,
    Option.some.injEq] at h
  obtain ⟨model, hmodel, h⟩ := h
  obtain ⟨mvj, hmvj, h⟩ := h
  obtain ⟨versionsJson, hvj, h⟩ := h
  obtain ⟨triples, htriples, h⟩ := h
  split at h
  · exact absurd h (by simp)
  · obtain ⟨hm, hvs, hfs, his⟩ :
        model = m ∧ List.map (fun t => t.1) triples = vs ∧
          (List.map (fun t => t.2.1) triples).flatten = fs ∧
          (List.map (fun t => t.2.2) triples).flatten = is := by
      have h' := Option.some.inj (Option.some.inj h)
      exact ⟨congrArg (fun x => x.1) h', congrArg (fun x => x.2.1) h',
        congrArg (fun x => x.2.2.1) h', congrArg (fun x => x.2.2.2) h'⟩
    subst hm
    subst hvs
    subst hfs
    subst his
    refine ⟨?_, ?_, ?_⟩
    · intro v hv
      obtain ⟨t, ht, hteq⟩ := List.mem_map.mp hv
      obtain ⟨vd, _, hvd⟩ := mapOpt_mem htriples ht
      obtain ⟨tv, tfs, tis⟩ := t
      obtain rfl : tv = v := hteq
      exact (items_from_model_version_fields hvd).1
    · intro f hf
      obtain ⟨l, hl, hfl⟩ := List.mem_flatten.mp hf
      obtain ⟨t, ht, hteq⟩ := List.mem_map.mp hl
      obtain ⟨vd, _, hvd⟩ := mapOpt_mem htriples ht
      obtain ⟨tv, tfs, tis⟩ := t
      obtain rfl : tfs = l := hteq
      obtain ⟨_, hfields, _⟩ := items_from_model_version_fields hvd
      obtain ⟨_, hvid, hsafe⟩ := hfields f hfl
      refine ⟨⟨tv, ?_, hvid⟩, hsafe⟩
      exact List.mem_map.mpr ⟨(tv, tfs, tis), ht, rfl⟩
    · intro im him
      obtain ⟨l, hl, himl⟩ := List.mem_flatten.mp him
      obtain ⟨t, ht, hteq⟩ := List.mem_map.mp hl
      obtain ⟨vd, _, hvd⟩ := mapOpt_mem htriples ht
      obtain ⟨tv, tfs, tis⟩ := t
      obtain rfl : tis = l := hteq
      obtain ⟨_, _, hfields⟩ := items_from_model_version_fields hvd
      obtain ⟨_, hvid⟩ := hfields im himl
      refine ⟨tv, ?_, hvid⟩
      exact List.mem_map.mpr ⟨(tv, tfs, tis), ht, rfl⟩

theorem deserialiseLoop_fields {env : Env} :
    ∀ {page : List PyVal} {ms : List Model} {vs : List ModelVersion}
      {fs : List ModelFile} {is : List ModelImage},
      deserialiseLoop env page = some (ms, vs, fs, is) →
      (∀ v ∈ vs, ∃ m ∈ ms, v.model_id = m.id) ∧
      (∀ f ∈ fs, (∃ v ∈ vs, f.model_version_id = v.id) ∧
        f.safe = PyVal.bool true) ∧
      (∀ im ∈ is, ∃ v ∈ vs, im.model_version_id = v.id) := by
  intro page
  induction page with
  | nil =>
      intro ms vs fs is h
      obtain ⟨hm, hv, hf, hi⟩ :
          ([] : List Model) = ms ∧ ([] : List ModelVersion) = vs ∧
            ([] : List ModelFile) = fs ∧ ([] : List ModelImage) = is := by
        have h' := Option.some.inj h
        exact ⟨congrArg (fun x => x.1) h', congrArg (fun x => x.2.1) h',
          congrArg (fun x => x.2.2.1) h', congrArg (fun x => x.2.2.2) h'⟩
      subst hm; subst hv; subst hf; subst hi
      refine ⟨?_, ?_, ?_⟩ <;> intro x hx <;> cases hx
  | cons d rest ih =>
      intro ms vs fs is h
      simp only [deserialiseLoop, Option.bind_eq_bind, Option.bind_eq_some] at h
      obtain ⟨item, hitem, h⟩ := h
      obtain ⟨t, ht, h⟩ := h
      obtain ⟨tms, tvs, tfs, tis⟩ := t
      obtain ⟨ihv, ihf, ihi⟩ := ih ht
      cases item with
      | none =>
          obtain ⟨hm, hv, hf, hi⟩ :
              tms = ms ∧ tvs = vs ∧ tfs = fs ∧ tis = is := by
            have h' := Option.some.inj h
            exact ⟨congrArg (fun x => x.1) h', congrArg (fun x => x.2.1) h',
              congrArg (fun x => x.2.2.1) h', congrArg (fun x => x.2.2.2) h'⟩
          subst hm; subst hv; subst hf; subst hi
          exact ⟨ihv, ihf, ihi⟩
      | some quad =>
          obtain ⟨model, mVs, mFs, mIs⟩ := quad
          obtain ⟨hm, hv, hf, hi⟩ :
              model :: tms = ms ∧ mVs ++ tvs = vs ∧ mFs ++ tfs = fs ∧
                mIs ++ tis = is := by
            have h' := Option.some.inj h
            exact ⟨congrArg (fun x => x.1) h', congrArg (fun x => x.2.1) h',
              congrArg (fun x => x.2.2.1) h', congrArg (fun x => x.2.2.2) h'⟩
          subst hm; subst hv; subst hf; subst hi
          obtain ⟨jv, jf, ji⟩ := items_from_model_json_fields hitem
          refine ⟨?_, ?_, ?_⟩
          · intro v hv
            rcases List.mem_append.mp hv with hv1 | hv2
            · exact ⟨model, List.mem_cons_self model tms, jv v hv1⟩
            · obtain ⟨m, hm, hmid⟩ := ihv v hv2
              exact ⟨m, List.mem_cons_of_mem model hm, hmid⟩
          · intro f hf
            rcases List.mem_append.mp hf with hf1 | hf2
            · obtain ⟨⟨v, hv, hvid⟩, hsafe⟩ := jf f hf1
              exact ⟨⟨v, List.mem_append.mpr (Or.inl hv), hvid⟩, hsafe⟩
            · obtain ⟨⟨v, hv, hvid⟩, hsafe⟩ := ihf f hf2
              exact ⟨⟨v, List.mem_append.mpr (Or.inr hv), hvid⟩, hsafe⟩
          · intro im him
            rcases List.mem_append.mp him with hi1 | hi2
            · obtain ⟨v, hv, hvid⟩ := ji im hi1
              exact ⟨v, List.mem_append.mpr (Or.inl hv), hvid⟩
            · obtain ⟨v, hv, hvid⟩ := ihi im hi2
              exact ⟨v, List.mem_append.mpr (Or.inr hv), hvid⟩

/-- C3: every `ModelFile` in the `Page` returned by `deserialise_items` has
`safe = True`; files whose safety check fails are filtered out before being
included in the result destined for persistence. -/
theorem page_files_all_safe (env : Env) (page : List PyVal) (pg : Page)
    (h : deserialise_items env page = some pg) :
    ∀ f ∈ pg.files, f.safe = PyVal.bool true := by
  simp only [deserialise_items, Option.bind_eq_bind, Option.bind_eq_some] at h
  obtain ⟨t, ht, hp⟩ := h
  obtain ⟨ms, vs, fs, is⟩ := t
  obtain rfl := Option.some.inj hp
  intro f hf
  exact ((deserialiseLoop_fields ht).2.1 f hf).2

/-- C3 witness: a concrete page with one safe and one unsafe file; the
resulting `Page` holds exactly the safe one. -/
theorem page_files_all_safe_witness :
    (deserialise_items env0 [modelJson1]).isSome = true ∧
    (∀ pg, deserialise_items env0 [modelJson1] = some pg →
      pg.files.length = 1 ∧ ∀ f ∈ pg.files, f.safe = PyVal.bool true) := by
  refine ⟨rfl, fun pg hpg => ⟨?_, page_files_all_safe env0 [modelJson1] pg hpg⟩⟩
  have hex : ∃ q, deserialise_items env0 [modelJson1] = some q := ⟨_, rfl⟩
  obtain ⟨q, hq⟩ := hex
  rw [hq] at hpg
  obtain rfl := Option.some.inj hpg
  rw [show q = (deserialise_items env0 [modelJson1]).getD q by rw [hq]; rfl]
  rfl

/-- C4: the `Page` returned by `deserialise_items` is referentially closed:
every `ModelFile`'s and `ModelImage`'s `model_version_id` equals the id of
some `ModelVersion` in the same `Page`, and every `ModelVersion`'s
`model_id` equals the id of some `Model` in the same `Page`. -/
theorem page_referentially_closed (env : Env) (page : List PyVal) (pg : Page)
    (h : deserialise_items env page = some pg) :
    (∀ f ∈ pg.files, ∃ v ∈ pg.versions, f.model_version_id = v.id) ∧
    (∀ im ∈ pg.images, ∃ v ∈ pg.versions, im.model_version_id = v.id) ∧
    (∀ v ∈ pg.versions, ∃ m ∈ pg.models, v.model_id = m.id) := by
  simp only [deserialise_items, Option.bind_eq_bind, Option.bind_eq_some] at h
  obtain ⟨t, ht, hp⟩ := h
  obtain ⟨ms, vs, fs, is⟩ := t
  obtain rfl := Option.some.inj hp
  obtain ⟨hv, hf, hi⟩ := deserialiseLoop_fields ht
  exact ⟨fun f hfm => (hf f hfm).1, hi, hv⟩

/-- C4 witness: referential closure on a concrete non-empty page. -/
theorem page_referentially_closed_witness :
    (deserialise_items env0 [modelJson1]).isSome = true ∧
    (∀ pg, deserialise_items env0 [modelJson1] = some pg →
      pg.files.length = 1 ∧ pg.images.length = 1 ∧ pg.versions.length = 1 ∧
      (∀ f ∈ pg.files, ∃ v ∈ pg.versions, f.model_version_id = v.id) ∧
      (∀ im ∈ pg.images, ∃ v ∈ pg.versions, im.model_version_id = v.id) ∧
      (∀ v ∈ pg.versions, ∃ m ∈ pg.models, v.model_id = m.id)) := by
  refine ⟨rfl, fun pg hpg => ?_⟩
  obtain ⟨hc1, hc2, hc3⟩ := page_referentially_closed env0 [modelJson1] pg hpg
  have hex : ∃ q, deserialise_items env0 [modelJson1] = some q := ⟨_, rfl⟩
  obtain ⟨q, hq⟩ := hex
  rw [hq] at hpg
  obtain rfl := Option.some.inj hpg
  refine ⟨?_, ?_, ?_, hc1, hc2, hc3⟩ <;>
    rw [show q = (deserialise_items env0 [modelJson1]).getD q by rw [hq]; rfl]
      <;> rfl

/-! Lemmas for claims C8 and C10: dict lookup after update and filtering. -/

theorem dictFind_some_any {es : List (String × PyVal)} {key : String}
    {x : PyVal} (h : dictFind es key = some x) :
    es.any (fun p => p.1 = key) = true := by
  induction es with
  | nil => simp [dictFind] at h
  | cons p rest ih =>
      obtain ⟨k, v⟩ := p
      by_cases hk : k = key
      · simp [hk]
      · simp only [dictFind, if_neg hk] at h
        simp [List.any_cons, ih h]

theorem dictFind_mapSet {es : List (String × PyVal)} {key : String}
    {v : PyVal} :
    dictFind (es.map (fun p => if p.1 = key then (p.1, v) else p)) key =
      (dictFind es key).map (fun _ => v) := by
  induction es with
  | nil => rfl
  | cons p rest ih =>
      obtain ⟨k, w⟩ := p
      simp only [List.map_cons]
      by_cases hk : k = key
      · subst hk
        have hhead : (if (k, w).1 = k then ((k, w).1, v) else (k, w)) =
            (k, v) := if_pos rfl
        rw [hhead]
        simp [dictFind]
      · have hhead : (if (k, w).1 = key then ((k, w).1, v) else (k, w)) =
            (k, w) := by
          simp [hk]
        rw [hhead]
        simp [dictFind, hk, ih]

theorem anyKey_filter_ne {ms : List (String × PyVal)} {key : String} :
    (ms.filter (fun p => decide (p.1 ≠ key))).any (fun p => p.1 = key) =
      false := by
  induction ms with
  | nil => rfl
  | cons p rest ih =>
      obtain ⟨k, v⟩ := p
      by_cases hk : k = key
      · simp only [List.filter, hk]
        simp [ih]
      · simp only [List.filter]
        simp [hk, ih]

theorem hasKey_false_dictFind {es : List (String × PyVal)} {key : String}
    (h : PyVal.hasKey (.dict es) key = false) :
    dictFind es key = Option.none := by
  induction es with
  | nil => rfl
  | cons p rest ih =>
      obtain ⟨k, v⟩ := p
      simp only [PyVal.hasKey, List.any_cons, Bool.or_eq_false_iff] at h
      obtain ⟨hk, hrest⟩ := h
      simp only [decide_eq_false_iff_not] at hk
      exact (dictFind rest key).rec (by simp [dictFind, hk, ih hrest])
        (fun x => by simp [dictFind, hk]; exact (ih hrest))

/-- C8: `ModelFile.from_json` mutates its input: when the file JSON's
metadata dict contains the key `trainingResults`, constructing the
`ModelFile` removes that key from the caller's dict, so the input JSON is
not left unchanged by deserialisation.  The second component of the
embedded `from_json` is the post-state of the input. -/
theorem modelfile_from_json_pops_training_results
    (env : Env) (mid vid data : PyVal) (ms : List (String × PyVal))
    (f : ModelFile) (d' : PyVal)
    (hmeta : data.getItem "metadata" = some (.dict ms))
    (hkey : (PyVal.dict ms).hasKey "trainingResults" = true)
    (h : ModelFile.from_json env mid vid data = some (f, d')) :
    d'.getItem "metadata" =
      some (.dict (ms.filter (fun p => decide (p.1 ≠ "trainingResults")))) ∧
    (PyVal.dict (ms.filter (fun p => decide (p.1 ≠ "trainingResults")))).hasKey
      "trainingResults" = false ∧
    d' ≠ data := by
  have hfilterKey : (PyVal.dict
      (ms.filter (fun p => decide (p.1 ≠ "trainingResults")))).hasKey
        "trainingResults" = false := by
    simp only [PyVal.hasKey]
    exact anyKey_filter_ne
  simp only [ModelFile.from_json, Option.bind_eq_bind, Option.bind_eq_some,
    Option.some.injEq] at h
  obtain ⟨mdv, hmdv, h⟩ := h
  rw [hmeta] at hmdv
  obtain rfl : PyVal.dict ms = mdv := Option.some.inj hmdv
  obtain ⟨me, hme, h⟩ := h
  obtain rfl : ms = me := Option.some.inj hme
  obtain ⟨idv, hid, h⟩ := h
  obtain ⟨ipv, hip, h⟩ := h
  obtain ⟨namev, hname, h⟩ := h
  obtain ⟨urlv, hurl, h⟩ := h
  obtain ⟨sizev, hsize, h⟩ := h
  obtain ⟨hf, hd⟩ := Prod.mk.inj h
  subst hd
  obtain ⟨es, rfl⟩ : ∃ es, data = PyVal.dict es := by
    cases data <;> simp [PyVal.getItem] at hmeta ⊢
  have hget : (PyVal.setItem (.dict es) "metadata"
      (.dict (ms.filter (fun p => decide (p.1 ≠ "trainingResults"))))).getItem
        "metadata" =
      some (.dict (ms.filter (fun p => decide (p.1 ≠ "trainingResults")))) := by
    have hany : es.any (fun p => p.1 = "metadata") = true :=
      dictFind_some_any (by simpa [PyVal.getItem] using hmeta)
    simp only [PyVal.setItem, dictSet, hany, if_true, PyVal.getItem,
      dictFind_mapSet]
    have : (dictFind es "metadata").isSome = true := by
      simp [PyVal.getItem] at hmeta
      simp [hmeta]
    cases hfind : dictFind es "metadata" with
    | none => rw [hfind] at this; simp at this
    | some x => simp
  refine ⟨hget, hfilterKey, ?_⟩
  intro heq
  rw [heq] at hget
  rw [hmeta] at hget
  have hdicts := Option.some.inj hget
  have hmss : ms = ms.filter (fun p => decide (p.1 ≠ "trainingResults")) := by
    injection hdicts
  rw [← hmss] at hfilterKey
  rw [hfilterKey] at hkey
  cases hkey

/-- C8 witness: a concrete file JSON object whose metadata contains
`trainingResults`; deserialising it removes the key from the dict. -/
theorem modelfile_from_json_pops_training_results_witness :
    fileJson1.getItem "metadata" = some (.dict
      [("fp", .str "fp16"), ("size", .str "full"),
       ("trainingResults", .dict [("epochs", .int 3)])]) ∧
    (ModelFile.from_json env0 (.int 1) (.int 31) fileJson1).isSome = true ∧
    (∀ pair, ModelFile.from_json env0 (.int 1) (.int 31) fileJson1 =
        some pair →
      pair.2.getItem "metadata" =
        some (.dict [("fp", .str "fp16"), ("size", .str "full")]) ∧
      pair.2 ≠ fileJson1) := by
  refine ⟨rfl, rfl, fun pair hpair => ?_⟩
  obtain ⟨f, d'⟩ := pair
  obtain ⟨h1, _, h3⟩ := modelfile_from_json_pops_training_results env0
    (.int 1) (.int 31) fileJson1
    [("fp", .str "fp16"), ("size", .str "full"),
     ("trainingResults", .dict [("epochs", .int 3)])]
    f d' rfl rfl hpair
  exact ⟨h1, h3⟩

/-- C10: `ModelImage.from_json` sets `generation_data` to a dict (despite
the NamedTuple's `str` annotation) containing exactly the keys `prompt`,
`negativePrompt`, `seed`, `steps`, `cfgScale` and `sampler`; a missing or
null `meta` field yields the defaults `""` for the string keys, `20` for
`steps` and `7.0` for `cfgScale`; whereas `ModelImage.from_record` sets
`generation_data` by JSON-decoding a string column. -/
theorem modelimage_generation_data_shape
    (mid vid data : PyVal) (ms : List (String × PyVal)) (im : ModelImage)
    (hms : (data.pyget "meta" (.dict [])).map (fun v => pyOr v (.dict [])) =
      some (.dict ms))
    (h : ModelImage.from_json mid vid data = some im) :
    im.generation_data = .dict
      [("prompt", (dictFind ms "prompt").getD (.str "")),
       ("negativePrompt", (dictFind ms "negativePrompt").getD (.str "")),
       ("seed", (dictFind ms "seed").getD (.str "")),
       ("steps", (dictFind ms "steps").getD (.int 20)),
       ("cfgScale", (dictFind ms "cfgScale").getD (.float 7)),
       ("sampler", (dictFind ms "sampler").getD (.str ""))] ∧
    ((data.hasKey "meta" = false ∨ data.getItem "meta" = some PyVal.none) →
      im.generation_data = .dict
        [("prompt", .str ""), ("negativePrompt", .str ""), ("seed", .str ""),
         ("steps", .int 20), ("cfgScale", .float 7), ("sampler", .str "")]) ∧
    (∀ (env : Env) (r : Rec) (s : String) (g : PyVal) (im' : ModelImage),
      r "generation_data" = .str s → env.json_loads s = some g →
      ModelImage.from_record env r = .ok im' → im'.generation_data = g) := by
  simp only [ModelImage.from_json, Option.bind_eq_bind, Option.bind_eq_some,
    Option.some.injEq] at h
  obtain ⟨metaRaw, hmeta, h⟩ := h
  obtain ⟨ms', hms', h⟩ := h
  obtain ⟨idv, hid, h⟩ := h
  obtain ⟨urlv, hurl, h⟩ := h
  obtain ⟨hashv, hhash, h⟩ := h
  obtain ⟨widthv, hwidth, h⟩ := h
  obtain ⟨heightv, hheight, h⟩ := h
  subst h
  rw [hmeta, Option.map_some'] at hms
  have hpyOr := Option.some.inj hms
  have hms'' : ms' = ms := by
    have := hpyOr ▸ hms'
    have h2 : ms = ms' := by simpa [PyVal.asDict] using this
    exact h2.symm
  subst hms''
  refine ⟨rfl, ?_, ?_⟩
  · intro hnull
    obtain ⟨es, rfl⟩ : ∃ es, data = PyVal.dict es := by
      cases data <;> simp [PyVal.pyget] at hmeta ⊢
    have hraw : metaRaw = PyVal.none ∨ metaRaw = PyVal.dict [] := by
      rcases hnull with hk | hv
      · have hfind := hasKey_false_dictFind hk
        right
        have := Option.some.inj hmeta
        rw [hfind] at this
        exact this.symm
      · left
        simp only [PyVal.getItem] at hv
        simp only [PyVal.pyget, hv] at hmeta
        exact (Option.some.inj hmeta).symm
    have hempty : ms' = [] := by
      rcases hraw with rfl | rfl <;>
        simpa [pyOr, PyVal.truthy] using hpyOr.symm
    subst hempty
    rfl
  · intro env r s g im' hcol hjson hrec
    simp only [ModelImage.from_record, jsonLoadsVal, hcol, hjson] at hrec
    have := Except.ok.inj hrec
    rw [← this]

/-- C10 witness: a concrete image JSON object whose meta supplies `prompt`
and `seed`; the remaining keys get their defaults, and a concrete record's
`generation_data` column is JSON-decoded. -/
theorem modelimage_generation_data_shape_witness :
    (imageJson1.pyget "meta" (.dict [])).map (fun v => pyOr v (.dict [])) =
      some (.dict [("prompt", .str "a cat"), ("seed", .int 7)]) ∧
    (ModelImage.from_json (.int 1) (.int 31) imageJson1).isSome = true ∧
    (∀ im, ModelImage.from_json (.int 1) (.int 31) imageJson1 = some im →
      im.generation_data = .dict
        [("prompt", .str "a cat"), ("negativePrompt", .str ""),
         ("seed", .int 7), ("steps", .int 20), ("cfgScale", .float 7),
         ("sampler", .str "")]) ∧
    (∀ im', ModelImage.from_record env0
        (fun c => if c = "generation_data" then .str "[]" else .int 0) =
          .ok im' → im'.generation_data = .list []) := by
  refine ⟨rfl, rfl, fun im him => ?_, fun im' him' => ?_⟩
  · have main := modelimage_generation_data_shape (.int 1) (.int 31)
      imageJson1 [("prompt", .str "a cat"), ("seed", .int 7)] im rfl him
    rw [main.1]
    rfl
  · have hex : ∃ im, ModelImage.from_json (.int 1) (.int 31) imageJson1 =
        some im := ⟨_, rfl⟩
    obtain ⟨im, him⟩ := hex
    exact (modelimage_generation_data_shape (.int 1) (.int 31) imageJson1
      [("prompt", .str "a cat"), ("seed", .int 7)] im rfl him).2.2 env0
      (fun c => if c = "generation_data" then .str "[]" else .int 0)
      "[]" (.list []) im' rfl rfl him'

/-- C9: in the hierarchy path built by `downloadModelFile`, the second
component is `category`-with-underscores plus `_nsfw` when the model's nsfw
flag is truthy, and the empty string — omitting the category entirely —
when the flag is falsy; the other components are the base model, model name
and version name with spaces replaced by underscores.  (The Python
conditional expression binds the whole second format argument.) -/
theorem hier_structure_second_component (model : Model)
    (version : ModelVersion) (base name vname : String)
    (hbase : version.base_model = .str base)
    (hname : model.name = .str name)
    (hvname : version.name = .str vname) :
    (∀ cat : String, model.nsfw.truthy = true → model.category = .str cat →
      hier_structure model version = some
        ("/" ++ strReplaceChar base ' ' "_" ++ "/" ++
          (strReplaceChar cat ' ' "_" ++ "_nsfw") ++ "/" ++
          strReplaceChar name ' ' "_" ++ "/" ++
          strReplaceChar vname ' ' "_")) ∧
    (model.nsfw.truthy = false →
      hier_structure model version = some
        ("/" ++ strReplaceChar base ' ' "_" ++ "/" ++ "" ++ "/" ++
          strReplaceChar name ' ' "_" ++ "/" ++
          strReplaceChar vname ' ' "_")) := by
  constructor
  · intro cat hnsfw hcat
    simp [hier_structure, hbase, hname, hvname, hcat, hnsfw, PyVal.asStr]
  · intro hnsfw
    simp [hier_structure, hbase, hname, hvname, hnsfw, PyVal.asStr]

/-- C9 witness: the two nsfw cases at concrete field values. -/
theorem hier_structure_second_component_witness :
    hier_structure modelNsfw9 version9 =
      some "/SD_1.5/anime_art_nsfw/My_Model/v_1" ∧
    hier_structure modelSfw9 version9 = some "/SD_1.5//My_Model/v_1" := by
  constructor
  · have main := (hier_structure_second_component modelNsfw9 version9
      "SD 1.5" "My Model" "v 1" rfl rfl rfl).1 "anime art" rfl rfl
    rw [main]
    rfl
  · have main := (hier_structure_second_component modelSfw9 version9
      "SD 1.5" "My Model" "v 1" rfl rfl rfl).2 rfl
    rw [main]
    rfl

/-- C5: the error behaviour of the download controller, evaluated at
concrete inputs.  A `ModelVersion` or `ModelFile` argument — both valid
types per the `isinstance` dispatch — nevertheless raises `TypeError`,
because `download` calls `downloadModelVersion` and `downloadModelFile`
with 1 and 2 required positional arguments missing; an argument of invalid
type raises the intended `TypeError`; a failed SQL query raises
`RuntimeError`; and a `Model` argument with all queries succeeding
completes without raising. -/
theorem download_dispatch_behaviour :
    download env0 ctrl0 (.version version9) = .error (.typeError
      "downloadModelVersion() missing 1 required positional argument: model_version") ∧
    download env0 ctrl0 (.file fileRow0) = .error (.typeError
      "downloadModelFile() missing 2 required positional arguments: model_version and model_file") ∧
    download env0 ctrl0 (.other "<class int>") =
      .error (.typeError "Invalid data type: <class int>") ∧
    download env0 { ctrl0 with execVersionQuery := fun _ => false }
      (.model modelNsfw9) = .error (.runtimeError "Failed to execute query") ∧
    (download env0 ctrl0 (.model modelNsfw9)).toOption.isSome = true := by
  exact ⟨rfl, rfl, rfl, rfl, rfl⟩

/-! Lemmas for claim C7: sidecar file paths. -/

theorem except_ok_bind {ε α β : Type} (a : α) (f : α → Except ε β) :
    (Except.ok a >>= f : Except ε β) = f a := rfl

theorem isAbs_ne_empty {s : String} (h : isAbs s = true) : s ≠ "" := by
  intro he
  subst he
  simp [isAbs] at h

theorem isAbs_false_of_no_slash {s : String} (h : '/' ∉ s.data) :
    isAbs s = false := by
  simp only [isAbs]
  cases hd : s.data with
  | nil => rfl
  | cons c rest =>
      have hcmem : c ∈ s.data := by
        rw [hd]
        exact List.mem_cons_self c rest
      have hc : c ≠ '/' := fun hceq => h (hceq ▸ hcmem)
      simp [hc]

theorem endsSlash_decomp {a : String} (h : endsSlash a = true) :
    ∃ pre, a.data = pre ++ ['/'] := by
  simp only [endsSlash] at h
  cases hd : a.data.reverse with
  | nil => rw [hd] at h; cases h
  | cons c rest =>
      rw [hd] at h
      simp only [decide_eq_true_eq] at h
      subst h
      refine ⟨rest.reverse, ?_⟩
      have hdata : a.data = ('/' :: rest).reverse := by
        rw [← List.reverse_reverse a.data, hd]
      rw [hdata]
      simp

theorem pathJoin_decomp {a b : String} (ha : a ≠ "") (hb : isAbs b = false) :
    ∃ pre, (pathJoin a b).data = pre ++ '/' :: b.data := by
  simp only [pathJoin, hb]
  rw [if_neg (by simp)]
  by_cases h2 : endsSlash a = true
  · rw [if_pos (Or.inr h2)]
    obtain ⟨pre, hpre⟩ := endsSlash_decomp h2
    refine ⟨pre, ?_⟩
    rw [String.data_append, hpre]
    simp
  · rw [if_neg (fun hor => hor.elim ha h2)]
    refine ⟨a.data, ?_⟩
    rw [String.data_append, String.data_append,
      show ("/" : String).data = ['/'] from rfl]
    simp

theorem takeWhile_ne_slash {l : List Char} (hl : '/' ∉ l) (r : List Char) :
    (l ++ '/' :: r).takeWhile (fun c => c ≠ '/') = l := by
  induction l with
  | nil =>
      rw [List.nil_append, List.takeWhile_cons_of_neg]
      simp
  | cons c rest ih =>
      have hc : c ≠ '/' := fun hceq => hl (hceq ▸ List.mem_cons_self c rest)
      have hrest : '/' ∉ rest := fun hmem => hl (List.mem_cons_of_mem c hmem)
      rw [List.cons_append, List.takeWhile_cons_of_pos (by simp [hc]),
        ih hrest]

theorem pathSplit_snd {pre f : List Char} (hf : '/' ∉ f) :
    (pathSplit (String.mk (pre ++ '/' :: f))).2 = String.mk f := by
  simp only [pathSplit]
  rw [show (pre ++ '/' :: f).reverse = f.reverse ++ '/' :: pre.reverse from by
    rw [List.reverse_append]
    simp]
  rw [takeWhile_ne_slash (by simpa using hf)]
  simp

theorem formatScan_no_brace {category : PyVal} :
    ∀ (s : List Char) (fuel : Nat), s.length ≤ fuel →
      '\x7b' ∉ s → '\x7d' ∉ s →
      formatScan category fuel s = .ok s := by
  intro s
  induction s with
  | nil => intro fuel _ _ _; cases fuel <;> rfl
  | cons c rest ih =>
      intro fuel hfuel h1 h2
      have hc1 : c ≠ '\x7b' := fun hc => h1 (hc ▸ List.mem_cons_self c rest)
      have hc2 : c ≠ '\x7d' := fun hc => h2 (hc ▸ List.mem_cons_self c rest)
      have hr1 : '\x7b' ∉ rest := fun hm => h1 (List.mem_cons_of_mem c hm)
      have hr2 : '\x7d' ∉ rest := fun hm => h2 (List.mem_cons_of_mem c hm)
      cases fuel with
      | zero => simp at hfuel
      | succ fuel =>
          have hrest := ih fuel (Nat.le_of_succ_le_succ hfuel) hr1 hr2
          simp only [formatScan, if_neg hc1, if_neg hc2, hrest,
            except_ok_bind]

theorem formatCategory_no_brace {s : String} {cat : PyVal}
    (h1 : '\x7b' ∉ s.data) (h2 : '\x7d' ∉ s.data) :
    formatCategory s cat = .ok s := by
  simp only [formatCategory,
    formatScan_no_brace s.data s.data.length le_rfl h1 h2, except_ok_bind]

/-- The format step raises before anything is written when a lone brace
reaches the resolved path — here through a model name containing `\x7b` —
so `downloadModelFile` propagates the `ValueError` of `str.format`. -/
theorem downloadModelFile_raises_on_brace_in_name :
    downloadModelFile env0 ctrl0
      { modelSfw9 with name := .str "My\x7bModel" } version9 fileRow0 =
    .error (.valueError "Single open brace in format string") := rfl

theorem isStr_exists {v : PyVal} (h : v.isStr = true) : ∃ s, v = .str s := by
  cases v <;> simp [PyVal.isStr] at h ⊢

theorem imageJpgWrites_eq (dirname stem : String) :
    ∀ (imgs : List ModelImage) (i : Nat),
      (∀ im ∈ imgs, im.url.isStr = true) →
      imageJpgWrites dirname stem i imgs = Except.ok
        ((imgs.enumFrom i).filterMap (fun p =>
          if p.2.url.truthy then
            some (pathJoin dirname (stem ++ "_" ++ toString p.1 ++ ".jpg"))
          else Option.none)) := by
  intro imgs
  induction imgs with
  | nil => intro i _; rfl
  | cons img rest ih =>
      intro i h
      have hu := h img (List.mem_cons_self img rest)
      obtain ⟨u, hu'⟩ := isStr_exists hu
      have hrest := ih (i + 1) (fun im hm => h im (List.mem_cons_of_mem img hm))
      simp only [imageJpgWrites, List.enumFrom_cons, List.filterMap_cons]
      cases htruthy : img.url.truthy with
      | false => simp [htruthy, hrest]
      | true =>
          simp only [htruthy, if_true, hu', expectStr]
          rw [hrest]
          rfl

/-- C7 (amended): when `downloadModelFile` resolves a final path for a
model file, the files it writes alongside the downloaded file, in the same
directory, are a JSON metadata file `<stem>.json`, a Markdown info file
`<stem>.md`, and one image file `<stem>_<i>.jpg` per preview image whose
url is truthy; preview images with a falsy url are skipped (their index is
skipped too), where `<stem>` is the model file's name without its
extension. -/
theorem downloadModelFile_sidecar_paths
    (env : Env) (ctrl : Ctrl) (model : Model) (version : ModelVersion)
    (file : ModelFile) (tp hs fname : String) (imgs : List ModelImage)
    (htp : ctrl.typePath model.type = .str tp)
    (hh : hier_structure model version = some hs)
    (habs : isAbs (tp ++ hs) = true)
    (hname : file.name = .str fname)
    (hns : '/' ∉ fname.data)
    (hex : ctrl.fileExists (pathJoin (tp ++ hs) fname) = false)
    (hnb1 : '\x7b' ∉ (pathJoin (tp ++ hs) fname).data)
    (hnb2 : '\x7d' ∉ (pathJoin (tp ++ hs) fname).data)
    (himg : get_image_list env ctrl version = .ok imgs)
    (hurl : ∀ im ∈ imgs, im.url.isStr = true)
    (htw : ∃ s, joinComma version.trained_words = Except.ok s)
    (hvd : version.description.isStr = true)
    (hmd : model.description.isStr = true)
    (hfu : file.url.isStr = true) :
    (pathSplit (pathJoin (tp ++ hs) fname)).2 = fname ∧
    downloadModelFile env ctrl model version file = Except.ok
      ((imgs.enum.filterMap (fun p =>
        if p.2.url.truthy then
          some (pathJoin (pathSplit (pathJoin (tp ++ hs) fname)).1
            ((splitExt fname).1 ++ "_" ++ toString p.1 ++ ".jpg"))
        else Option.none)) ++
       [pathJoin (pathSplit (pathJoin (tp ++ hs) fname)).1
          ((splitExt fname).1 ++ ".json"),
        pathJoin (pathSplit (pathJoin (tp ++ hs) fname)).1
          ((splitExt fname).1 ++ ".md"),
        pathJoin (tp ++ hs) fname]) := by
  obtain ⟨pre, hpre⟩ := pathJoin_decomp (a := tp ++ hs) (b := fname)
    (isAbs_ne_empty habs) (isAbs_false_of_no_slash hns)
  have hmkeq : pathJoin (tp ++ hs) fname =
      String.mk (pre ++ '/' :: fname.data) := String.ext hpre
  have hsplit2 : (pathSplit (pathJoin (tp ++ hs) fname)).2 = fname := by
    rw [hmkeq, pathSplit_snd hns]
  have hne : pathJoin (tp ++ hs) fname ≠ "" := by
    intro h0
    have hd0 : (pathJoin (tp ++ hs) fname).data = [] := by rw [h0]
    rw [hpre] at hd0
    simp at hd0
  obtain ⟨tws, htws⟩ := htw
  obtain ⟨vd, hvd'⟩ := isStr_exists hvd
  obtain ⟨md, hmd'⟩ := isStr_exists hmd
  obtain ⟨fu, hfu'⟩ := isStr_exists hfu
  refine ⟨hsplit2, ?_⟩
  simp only [downloadModelFile, hh, htp, except_ok_bind]
  rw [if_pos ⟨isAbs_ne_empty habs, habs⟩]
  simp only [hname, expectStr, except_ok_bind]
  rw [if_neg hne]
  rw [if_neg (by simp [hex])]
  rw [formatCategory_no_brace hnb1 hnb2]
  simp only [himg, except_ok_bind, hsplit2]
  rw [imageJpgWrites_eq _ _ imgs 0 hurl]
  simp only [except_ok_bind, htws, hvd', hmd', hfu', expectStr, List.enum]

/-- C7 counterexample: a run of `downloadModelFile` that resolves a final
path with exactly one preview image whose url is empty writes no
`<stem>_0.jpg` at all — only the JSON and Markdown sidecars and the model
file — refuting "one image file per preview image" as stated. -/
theorem downloadModelFile_skips_empty_url_image :
    get_image_list env0 ctrlEmptyUrl version9 = .ok [imgEmptyUrl] ∧
    downloadModelFile env0 ctrlEmptyUrl modelSfw9 version9 fileRow0 =
      .ok
        ["/models/Lora/SD_1.5//My_Model/v_1/file.json",
         "/models/Lora/SD_1.5//My_Model/v_1/file.md",
         "/models/Lora/SD_1.5//My_Model/v_1/file.safetensors"] ∧
    "/models/Lora/SD_1.5//My_Model/v_1/file_0.jpg" ∉
      (["/models/Lora/SD_1.5//My_Model/v_1/file.json",
        "/models/Lora/SD_1.5//My_Model/v_1/file.md",
        "/models/Lora/SD_1.5//My_Model/v_1/file.safetensors"] :
          List String) := by
  exact ⟨rfl, rfl, by decide⟩

/-- C7 witness: the amended claim instantiated at a concrete run with one
preview image with a non-empty url. -/
theorem downloadModelFile_sidecar_paths_witness :
    (pathSplit (pathJoin ("/models/Lora" ++ "/SD_1.5//My_Model/v_1")
      "file.safetensors")).2 = "file.safetensors" ∧
    downloadModelFile env0 ctrl0 modelSfw9 version9 fileRow0 = Except.ok
      (([imgWeb0].enum.filterMap (fun p =>
        if p.2.url.truthy then
          some (pathJoin (pathSplit (pathJoin
            ("/models/Lora" ++ "/SD_1.5//My_Model/v_1")
            "file.safetensors")).1
            ((splitExt "file.safetensors").1 ++ "_" ++ toString p.1 ++
              ".jpg"))
        else Option.none)) ++
       [pathJoin (pathSplit (pathJoin
          ("/models/Lora" ++ "/SD_1.5//My_Model/v_1")
          "file.safetensors")).1
          ((splitExt "file.safetensors").1 ++ ".json"),
        pathJoin (pathSplit (pathJoin
          ("/models/Lora" ++ "/SD_1.5//My_Model/v_1")
          "file.safetensors")).1
          ((splitExt "file.safetensors").1 ++ ".md"),
        pathJoin ("/models/Lora" ++ "/SD_1.5//My_Model/v_1")
          "file.safetensors"]) :=
  downloadModelFile_sidecar_paths env0 ctrl0 modelSfw9 version9 fileRow0
    "/models/Lora" "/SD_1.5//My_Model/v_1" "file.safetensors" [imgWeb0]
    rfl rfl rfl rfl (by decide) rfl (by decide) (by decide) rfl
    (by
      intro im him
      rw [List.mem_singleton] at him
      subst him
      rfl)
    ⟨"", rfl⟩ rfl rfl rfl
